import Mathlib

/-!
Verification development for the search aggregation core of xdcc-cli
(file src/search.go).  The Go code is shallowly embedded: pure helpers
become Lean functions; the HTTP fetch and the HTML document are abstract
inputs; goroutine/WaitGroup behaviour of the registry is modelled by the
final value of the WaitGroup counter.  Machine floating point values are
modelled by exact fractions together with an explicit round-to-nearest
float32 operation; GCD-free fractions are used so that every definition
reduces inside the kernel.
-/

/- ## Exact fractions

A fraction with a positive denominator, never reduced (no GCD), so all
operations compute by plain integer arithmetic in the kernel.  These model
the exact real values taken by Go float variables. -/

structure Frac where
  num : ℤ
  den : ℤ
  dpos : 0 < den

/-- Embed an integer as a fraction. -/
def fracOfInt (n : ℤ) : Frac := ⟨n, 1, one_pos⟩

/-- Product of two fractions. -/
def fracMul (a b : Frac) : Frac := ⟨a.num * b.num, a.den * b.den, mul_pos a.dpos b.dpos⟩

/-- Negation of a fraction. -/
def fracNeg (a : Frac) : Frac := ⟨-a.num, a.den, a.dpos⟩

/-- Difference of two fractions. -/
def fracSub (a b : Frac) : Frac :=
  ⟨a.num * b.den - b.num * a.den, a.den * b.den, mul_pos a.dpos b.dpos⟩

/-- Strict order on fractions, by cross multiplication (denominators are positive). -/
def fracLtB (a b : Frac) : Bool := a.num * b.den < b.num * a.den

/-- Non-strict order on fractions. -/
def fracLeB (a b : Frac) : Bool := a.num * b.den ≤ b.num * a.den

/-- Value equality of fractions (1/2 and 2/4 are equal values). -/
def fracEqB (a b : Frac) : Bool := a.num * b.den == b.num * a.den

/-- Truncation toward zero, the semantics of a Go float-to-int64 conversion
for in-range values (Int.fdiv is floor division, correct here because the
denominator is positive).  A Go conversion whose value overflows int64 is
implementation-defined and is modelled as the exact truncated integer. -/
def truncF (a : Frac) : ℤ :=
  if 0 ≤ a.num then a.num.fdiv a.den else -((-a.num).fdiv a.den)

/-- Power of two as a fraction, with integer exponent. -/
def pow2F (k : ℤ) : Frac :=
  if 0 ≤ k then ⟨((2 ^ k.toNat : ℕ) : ℤ), 1, one_pos⟩
  else ⟨1, ((2 ^ (-k).toNat : ℕ) : ℤ), by positivity⟩

/-- Power of ten as a fraction, with integer exponent. -/
def pow10F (k : ℤ) : Frac :=
  if 0 ≤ k then ⟨((10 ^ k.toNat : ℕ) : ℤ), 1, one_pos⟩
  else ⟨1, ((10 ^ (-k).toNat : ℕ) : ℤ), by positivity⟩

/-- Fuel-driven base-2 logarithm on naturals (floor), kernel-reducible. -/
def natLog2F : ℕ → ℕ → ℕ
  | 0, _ => 0
  | f + 1, n => if n < 2 then 0 else natLog2F f (n / 2) + 1

/-- Floor of the base-2 logarithm of a natural number (0 for 0). -/
def natLog2 (n : ℕ) : ℕ := natLog2F n n

/-- Floor of the base-2 logarithm of a positive fraction: the unique e with
2^e ≤ a < 2^(e+1).  Only meaningful for positive arguments. -/
def floorLog2F (a : Frac) : ℤ :=
  let e : ℤ := (natLog2 a.num.natAbs : ℤ) - (natLog2 a.den.toNat : ℤ)
  if fracLtB a (pow2F e) then e - 1 else e

/-- Round a fraction to the nearest integer, ties to even. -/
def roundHalfEvenF (a : Frac) : ℤ :=
  let n := a.num.fdiv a.den
  let fr := fracSub a (fracOfInt n)
  if fracLtB fr ⟨1, 2, two_pos⟩ then n
  else if fracLtB ⟨1, 2, two_pos⟩ fr then n + 1
  else if n % 2 = 0 then n else n + 1

/-- Round an exact fraction to the nearest IEEE-754 binary32 value
(round to nearest, ties to even, subnormals included); none on overflow
to infinity.  This is the value semantics of a correctly rounded float32. -/
def roundFloat32 (a : Frac) : Option Frac :=
  if a.num = 0 then some (fracOfInt 0)
  else
    let x := if a.num < 0 then fracNeg a else a
    let e := max (floorLog2F x) (-126)
    let m := roundHalfEvenF (fracMul x (pow2F (23 - e)))
    let r := fracMul (fracOfInt m) (pow2F (e - 23))
    if fracLeB (pow2F 128) r then none
    else if a.num < 0 then some (fracNeg r) else some r

/- ## Decimal string parsing -/

/-- Decimal digit test (ASCII 0-9). -/
def isDigitCh (c : Char) : Bool := '0' ≤ c && c ≤ '9'

/-- Numeric value of a string of decimal digits. -/
def digitsToNat (ds : List Char) : ℕ := ds.foldl (fun a c => a * 10 + (c.toNat - 48)) 0

/-- Modelled from the spec: the numeric prefix is "parsed as a floating-point
number".  The parser used by the source, strconv.ParseFloat, is Go standard
library code not present under src/.  This models its decimal grammar:
optional sign, digits with an optional fractional part (at least one digit
overall), and an optional e/E exponent with optional sign.  The special
forms inf/nan, hexadecimal floats and digit-separating underscores that Go
additionally accepts are outside the modelled grammar. -/
def parseDecimal (s : String) : Option Frac :=
  let cs := s.data
  let sgnCs : Bool × List Char :=
    match cs with
    | '-' :: r => (true, r)
    | '+' :: r => (false, r)
    | _ => (false, cs)
  let neg := sgnCs.1
  let cs1 := sgnCs.2
  let ip := cs1.takeWhile isDigitCh
  let r1 := cs1.dropWhile isDigitCh
  let fpR2 : List Char × List Char :=
    match r1 with
    | '.' :: r => (r.takeWhile isDigitCh, r.dropWhile isDigitCh)
    | _ => ([], r1)
  let fp := fpR2.1
  let r2 := fpR2.2
  if ip.isEmpty && fp.isEmpty then none
  else
    let mant : Frac :=
      ⟨((digitsToNat ip * 10 ^ fp.length + digitsToNat fp : ℕ) : ℤ),
        ((10 ^ fp.length : ℕ) : ℤ), by positivity⟩
    let mant := if neg then fracNeg mant else mant
    match r2 with
    | [] => some mant
    | e :: r3 =>
      if e == 'e' || e == 'E' then
        let esCs : Bool × List Char :=
          match r3 with
          | '-' :: r => (true, r)
          | '+' :: r => (false, r)
          | _ => (false, r3)
        let ed := esCs.2.takeWhile isDigitCh
        let r5 := esCs.2.dropWhile isDigitCh
        if ed.isEmpty || !r5.isEmpty then none
        else
          let ex : ℤ := if esCs.1 then -(digitsToNat ed : ℤ) else (digitsToNat ed : ℤ)
          some (fracMul mant (pow10F ex))
      else none

/-- Modelled from the spec: strconv.ParseFloat(sizePart, 32) — parse the
decimal string and round the exact value to the nearest float32.  A range
overflow makes Go return a non-nil error, modelled by none. -/
def parseFloat32 (s : String) : Option Frac := (parseDecimal s).bind roundFloat32

/-- Modelled from the spec: strconv.Atoi — optional sign, at least one
decimal digit, nothing else, with the int64 range check. -/
def parseAtoi (s : String) : Option ℤ :=
  let cs := s.data
  let sgnCs : Bool × List Char :=
    match cs with
    | '-' :: r => (true, r)
    | '+' :: r => (false, r)
    | _ => (false, cs)
  let ds := sgnCs.2
  if ds.isEmpty || !(ds.all isDigitCh) then none
  else
    let v : ℤ := if sgnCs.1 then -(digitsToNat ds : ℤ) else (digitsToNat ds : ℤ)
    if v < -((2 ^ 63 : ℕ) : ℤ) || ((2 ^ 63 : ℕ) : ℤ) - 1 < v then none else some v

/- ## Data model (src/search.go lines 14-28) -/

/-- XdccFileInfo (src/search.go lines 14-24), the retrieval descriptor. -/
structure XdccFileInfo where
  Network : String
  Channel : String
  BotName : String
  Name : String
  Gets : ℤ
  Url : String
  Command : String
  Size : ℤ
  Slot : String
  deriving DecidableEq

/- ## parseFileSize (src/search.go lines 74-95) -/

/-- Modelled from the spec: the byte-unit multiplier KiloByte is declared
elsewhere in the repository (not under src/); the spec fixes K = 1024. -/
def KiloByte : Frac := fracOfInt 1024

/-- Modelled from the spec: M = 1024^2. -/
def MegaByte : Frac := fracOfInt (1024 * 1024)

/-- Modelled from the spec: G = 1024^3 (binary gigabyte). -/
def GigaByte : Frac := fracOfInt (1024 * 1024 * 1024)

/-- Model of Go string slicing s[:len(s)-1] for a non-empty s.  Go slices
bytes; this drops the last code point, which coincides for ASCII data. -/
def dropLastStr (s : String) : String := ⟨s.data.dropLast⟩

/-- parseFileSize (src/search.go lines 74-95).  Every error path of the Go
function returns the value -1 together with a non-nil error; the Except
encodes the error, and callers that ignore the error read -1.  The exact
Go error message texts are not modelled. -/
def parseFileSize (sizeStr : String) : Except String ℤ :=
  if sizeStr.data.isEmpty then .error "empty string"
  else
    let lastChar := sizeStr.data.getLastD ' '
    let sizePart := dropLastStr sizeStr
    match parseFloat32 sizePart with
    | none => .error "invalid syntax"
    | some size =>
      if lastChar == 'G' then .ok (truncF (fracMul size GigaByte))
      else if lastChar == 'M' then .ok (truncF (fracMul size MegaByte))
      else if lastChar == 'K' then .ok (truncF (fracMul size KiloByte))
      else .error ("unable to parse: " ++ sizeStr)

deriving instance DecidableEq for Except

/-- True exactly on the ok constructor. -/
def exceptIsOk {ε α : Type} : Except ε α → Bool
  | .ok _ => true
  | .error _ => false

/-- The int64 value a caller of parseFileSize sees when it ignores the
error, as parseFields does: the parsed size, or -1 on any failure. -/
def sizeValue (s : String) : ℤ :=
  match parseFileSize s with
  | .ok v => v
  | .error _ => -1

/- ## parseFields (src/search.go lines 97-116) -/

/-- xdccEuNumberOfEntries (src/search.go line 97). -/
def xdccEuNumberOfEntries : ℕ := 7

/-- Outcome of XdccEuProvider.parseFields: a descriptor, a Go error, or a
runtime panic escaping the function. -/
inductive FieldsResult where
  | ok (info : XdccFileInfo)
  | error (msg : String)
  | panicked (msg : String)
  deriving DecidableEq

/-- XdccEuProvider.parseFields (src/search.go lines 99-116).  The length
check keeps the source's misspelled message.  When the Gets cell
(fields[4]) is empty, the Go expression fields[4][:len(fields[4])-1]
slices with negative bound -1 and panics; otherwise a failed Atoi leaves
Gets at its zero value 0.  The size parse error is ignored, so Size
receives parseFileSize's value, which is -1 on every error path. -/
def parseFields (fields : List String) : FieldsResult :=
  if fields.length ≠ xdccEuNumberOfEntries then
    .error "unespected number of search entry fields"
  else
    let f4 := fields.getD 4 ""
    if f4.data.isEmpty then .panicked "runtime error: slice bounds out of range"
    else
      let gets := (parseAtoi (dropLastStr f4)).getD 0
      .ok {
        Network := fields.getD 0 ""
        Channel := fields.getD 1 ""
        BotName := fields.getD 2 ""
        Slot := fields.getD 3 ""
        Gets := gets
        Size := sizeValue (fields.getD 5 "")
        Name := fields.getD 6 ""
        Url := ""
        Command := "" }

/- ## XdccEuProvider.Search (src/search.go lines 118-167) -/

/-- One table cell of the fetched HTML document, at the abstraction
boundary of the goquery calls in the source: its text content, and the
href attribute of the first anchor element inside it when one exists. -/
structure Cell where
  text : String
  href : Option String
  deriving DecidableEq

/-- The whitespace class of Go unicode.IsSpace, used by strings.TrimSpace
and strings.Fields. -/
def isGoSpace (c : Char) : Bool :=
  c == ' ' || c == '\t' || c == '\n' || c.toNat == 11 || c.toNat == 12 || c == '\r' ||
    c.toNat == 0x85 || c.toNat == 0xA0 || c.toNat == 0x1680 ||
    (0x2000 ≤ c.toNat && c.toNat ≤ 0x200a) || c.toNat == 0x2028 || c.toNat == 0x2029 ||
    c.toNat == 0x202f || c.toNat == 0x205f || c.toNat == 0x3000

/-- strings.TrimSpace: remove leading and trailing whitespace. -/
def goTrimSpace (s : String) : String :=
  ⟨((s.data.dropWhile isGoSpace).reverse.dropWhile isGoSpace).reverse⟩

/-- strings.Fields: the whitespace-separated words of a string. -/
def goFields (s : String) : List String :=
  let step := fun (c : Char) (acc : List (List Char)) =>
    if isGoSpace c then [] :: acc
    else
      match acc with
      | [] => [[c]]
      | w :: ws => (c :: w) :: ws
  (s.data.foldr step []).filterMap (fun w => if w.isEmpty then none else some ⟨w⟩)

/-- Bool test for a leading occurrence of pat at the head of cs. -/
def leadsWith : List Char → List Char → Bool
  | [], _ => true
  | _ :: _, [] => false
  | p :: ps, c :: cs => p == c && leadsWith ps cs

/-- Replace the first occurrence of old (non-empty) in a character list. -/
def replaceOnceAux (old new : List Char) : List Char → List Char
  | [] => []
  | c :: cs =>
    if leadsWith old (c :: cs) then new ++ (c :: cs).drop old.length
    else c :: replaceOnceAux old new cs

/-- strings.Replace(s, old, new, 1): substitute only the first occurrence
of old; with an empty old, insert new in front. -/
def replaceOnce (s old new : String) : String :=
  if old.data.isEmpty then ⟨new.data ++ s.data⟩
  else ⟨replaceOnceAux old.data new.data s.data⟩

/-- Outcome of the per-row body of the tr loop (src/search.go lines
142-165): a panic escaping the iteration, a silent skip when parseFields
fails, or one completed descriptor. -/
inductive RowOutcome where
  | panicked (msg : String)
  | skipped
  | ok (info : XdccFileInfo)
  deriving DecidableEq

/-- Body of the tr loop for one non-header row (src/search.go lines
146-164): collect the trimmed cell texts, take the href of the first
anchor of cell index 1 (Go leaves url at its zero value "" when the cell
or the anchor is missing), run parseFields, and on success rewrite the
locator scheme and synthesize the IRC command. -/
def processRow (row : List Cell) : RowOutcome :=
  let fields := row.map (fun c => goTrimSpace c.text)
  let url := ((row[1]?).bind Cell.href).getD ""
  match parseFields fields with
  | .panicked m => .panicked m
  | .error _ => .skipped
  | .ok info => .ok { info with
      Url := replaceOnce url "irc://" "http://"
      Command := "/msg " ++ info.BotName ++ " xdcc send " ++ info.Slot }

/-- Sequential processing of the non-header rows; none models a panic
escaping the whole Search call (the Go Each callback runs on the calling
goroutine, so a row panic aborts every later row and the call itself). -/
def processRows : List (List Cell) → Option (List XdccFileInfo)
  | [] => some []
  | r :: rs =>
    match processRow r with
    | .panicked _ => none
    | .skipped => processRows rs
    | .ok i => (processRows rs).map (fun l => i :: l)

/-- The table-to-descriptors phase of XdccEuProvider.Search: every tr of
the document in order, the first (header) row skipped (src/search.go
lines 141-165). -/
def xdccEuParse (rows : List (List Cell)) : Option (List XdccFileInfo) :=
  processRows (rows.drop 1)

/-- XdccEuURL (src/search.go line 72). -/
def XdccEuURL : String := "https://www.xdcc.eu/search.php"

/-- The query keyword string (src/search.go lines 119-120): join the
keywords with spaces, split into whitespace-separated fields, re-join
with +. -/
def searchKeyOf (keywords : List String) : String :=
  let keywordString := String.intercalate " " keywords
  String.intercalate "+" (goFields keywordString)

/-- What the surrounding process observes of one http.Get: a transport
error, or a response carrying a status code, a status line, and a body
whose goquery parse yields the tr rows or a document error. -/
inductive FetchResult where
  | netError (msg : String)
  | response (statusCode : ℕ) (status : String) (body : Except String (List (List Cell)))

/-- Observable outcome of XdccEuProvider.Search: a log.Fatal process
termination, a runtime panic, a normal (results, nil) return, or an
error return.  No reachable path of the source produces errorReturn:
every failure branch calls log.Fatal or log.Fatalf first, so the
return statements after them never execute. -/
inductive SearchOutcome where
  | fatalExit (msg : String)
  | panicked (msg : String)
  | ok (results : List XdccFileInfo)
  | errorReturn (msg : String)
  deriving DecidableEq

/-- XdccEuProvider.Search (src/search.go lines 118-167) over an abstract
network, given as the function from the requested URL to the fetch
outcome. -/
def xdccEuSearch (keywords : List String) (get : String → FetchResult) : SearchOutcome :=
  match get (XdccEuURL ++ "?searchkey=" ++ searchKeyOf keywords) with
  | .netError m => .fatalExit m
  | .response code status body =>
    if code ≠ 200 then .fatalExit ("status code error: " ++ toString code ++ " " ++ status)
    else
      match body with
      | .error m => .fatalExit m
      | .ok rows =>
        match xdccEuParse rows with
        | none => .panicked "runtime error: slice bounds out of range"
        | some infos => .ok infos

/- ## XdccProviderRegistry (src/search.go lines 30-68) -/

/-- MaxProviders (src/search.go line 34): initial capacity of the
provider list; appends are not bounded by it. -/
def MaxProviders : ℕ := 100

/-- MaxResults (src/search.go line 46): initial capacity of the result
slice; the code never truncates to it. -/
def MaxResults : ℕ := 1024

/-- A registered provider, as the registry uses it: keywords in,
descriptors or a Go error out. -/
def XdccSearchProvider : Type := List String → Except String (List XdccFileInfo)

/-- XdccProviderRegistry.Search (src/search.go lines 48-68).  One
goroutine per provider; wg.Add(n) happens before the launches, and only
the success path of a goroutine reaches wg.Done() — a provider error
returns from the goroutine early.  wg.Wait() therefore returns exactly
when every provider succeeded; otherwise the counter stays positive
forever and the call never returns, modelled by none.  The appends of
the goroutines are modelled in provider order (their true interleaving
is scheduler-dependent, and the source performs them without a lock;
neither affects whether Wait can return). -/
def registrySearch (providerList : List XdccSearchProvider) (keywords : List String) :
    Option (List XdccFileInfo) :=
  let outcomes := providerList.map (fun p => p keywords)
  let doneCalls := (outcomes.filter (fun r => exceptIsOk r)).length
  if doneCalls = outcomes.length then
    some (outcomes.foldl
      (fun acc r => match r with | .ok l => acc ++ l | .error _ => acc) [])
  else none

/- ## Concrete inputs used to instantiate the theorems -/

/-- A descriptor as a successful provider could return it. -/
def sampleInfo : XdccFileInfo :=
  { Network := "Rizon", Channel := "#chan", BotName := "bot", Name := "file.iso",
    Gets := 0, Url := "", Command := "", Size := -1, Slot := "#1" }

/-- A 7-cell table row whose size cell carries a negative numeric prefix. -/
def negSizeRow : List Cell :=
  [⟨"Rizon", none⟩, ⟨"#chan", some "irc://x/y"⟩, ⟨"bot", none⟩, ⟨"#7", none⟩,
    ⟨"9x", none⟩, ⟨"-2.5G", none⟩, ⟨"file.iso", none⟩]

/-- The descriptor the provider builds from negSizeRow. -/
def negSizeInfo : XdccFileInfo :=
  { Network := "Rizon", Channel := "#chan", BotName := "bot", Slot := "#7",
    Gets := 9, Size := -2684354560, Name := "file.iso",
    Url := "http://x/y", Command := "/msg bot xdcc send #7" }

/-- The descriptor parseFields builds from seven empty-or-filler cells. -/
def emptyFieldsInfo : XdccFileInfo :=
  { Network := "", Channel := "", BotName := "", Slot := "",
    Gets := 0, Size := 1024, Name := "", Url := "", Command := "" }

/- ## Helper lemmas -/

/-- A string whose character list is non-nil is not the empty string. -/
theorem string_ne_empty_of_isEmpty_false {s : String} (h : s.data.isEmpty = false) :
    s ≠ "" := by
  intro he
  subst he
  simp at h

/-- Inversion for a successful parseFields call: the field list had exactly
7 entries, the Gets cell was non-empty, and the descriptor is built
verbatim from the cells with the Gets and Size decoding rules. -/
theorem parseFields_ok_inv (fields : List String) (info : XdccFileInfo)
    (h : parseFields fields = .ok info) :
    fields.length = 7 ∧ fields.getD 4 "" ≠ "" ∧
      info = { Network := fields.getD 0 "", Channel := fields.getD 1 "",
               BotName := fields.getD 2 "", Slot := fields.getD 3 "",
               Gets := (parseAtoi (dropLastStr (fields.getD 4 ""))).getD 0,
               Size := sizeValue (fields.getD 5 ""), Name := fields.getD 6 "",
               Url := "", Command := "" } := by
  unfold parseFields at h
  split at h
  · exact absurd h (by simp)
  · next h7 =>
    rw [not_ne_iff] at h7
    simp only [] at h
    split at h
    · exact absurd h (by simp)
    · next hne =>
      rw [Bool.not_eq_true] at hne
      injection h with h
      exact ⟨by simpa [xdccEuNumberOfEntries] using h7,
        string_ne_empty_of_isEmpty_false hne, h.symm⟩

/-- True exactly when a parseFields outcome is a descriptor. -/
def fieldsOk : FieldsResult → Bool
  | .ok _ => true
  | _ => false

/-- A non-empty string has isEmpty false on its character list. -/
theorem isEmpty_false_of_string_ne_empty {s : String} (h : s ≠ "") :
    s.data.isEmpty = false := by
  rcases hb : s.data.isEmpty
  · rfl
  · exact absurd (String.ext (by simpa using hb)) h

/-- C1: with two registered sources, one failing and one succeeding with one
descriptor, the code never returns at all: the failing goroutine returns
before wg.Done(), the WaitGroup counter stays at 1, and wg.Wait() blocks
forever (modelled by none) — instead of returning the K = 1 descriptors the
claim requires. -/
theorem c1_registry_search_hangs_with_one_failing_provider :
    registrySearch [fun _ => Except.error "request failed", fun _ => Except.ok [sampleInfo]]
      ["ubuntu", "iso"] = none := rfl

/-- C2: the worked size decodings of the spec: 2.5G, 750M, 512K map to the
truncated binary-unit products, and the empty string, an unrecognized unit
letter, and an unparseable numeric prefix are all errors. -/
theorem c2_parseFileSize_decoding :
    parseFileSize "2.5G" = .ok 2684354560 ∧
      parseFileSize "750M" = .ok 786432000 ∧
      parseFileSize "512K" = .ok 524288 ∧
      exceptIsOk (parseFileSize "") = false ∧
      exceptIsOk (parseFileSize "10X") = false ∧
      exceptIsOk (parseFileSize "abcG") = false := by decide

/-- C9: on any 7-entry field list whose Gets cell (fields[4]) is empty,
parseFields panics: the Go slice expression fields[4][:len(fields[4])-1]
uses the negative bound -1. -/
theorem c9_parseFields_panics_on_empty_gets (fields : List String)
    (h7 : fields.length = 7) (h4 : fields.getD 4 "" = "") :
    parseFields fields = .panicked "runtime error: slice bounds out of range" := by
  unfold parseFields
  rw [if_neg (by simp [xdccEuNumberOfEntries, h7])]
  simp only []
  rw [h4]
  rfl

/-- Witness for C9 at a concrete 7-cell row with an empty Gets cell. -/
theorem c9_witness :
    (["a", "b", "c", "d", "", "2M", "e"] : List String).length = 7 ∧
      parseFields ["a", "b", "c", "d", "", "2M", "e"] =
        .panicked "runtime error: slice bounds out of range" :=
  ⟨by decide, c9_parseFields_panics_on_empty_gets _ (by decide) (by decide)⟩

/-- C6 counterexample: a 7-cell row whose Gets cell is empty is not parsed
successfully at all — the claimed universal outcome (row parsed, GetCount 0)
fails because the code panics before the integer conversion is reached. -/
theorem c6_counterexample_empty_gets_cell :
    (["n", "c", "b", "s", "", "1K", "f"] : List String).length = 7 ∧
      fieldsOk (parseFields ["n", "c", "b", "s", "", "1K", "f"]) = false ∧
      parseFields ["n", "c", "b", "s", "", "1K", "f"] =
        .panicked "runtime error: slice bounds out of range" := by decide

/-- C6 amended: for every 7-cell row whose Gets cell is non-empty, the row
parses successfully and GetCount is the integer conversion of the cell
minus its last character, defaulting to 0 when that conversion fails. -/
theorem c6_amended_gets_decode (fields : List String) (h7 : fields.length = 7)
    (hne : fields.getD 4 "" ≠ "") :
    ∃ info, parseFields fields = .ok info ∧
      info.Gets = ((parseAtoi (dropLastStr (fields.getD 4 ""))).getD 0 : ℤ) := by
  unfold parseFields
  rw [if_neg (by simp [xdccEuNumberOfEntries, h7])]
  simp only []
  rw [if_neg (by simp only [isEmpty_false_of_string_ne_empty hne]; exact Bool.false_ne_true)]
  exact ⟨_, rfl, rfl⟩

/-- Witness for C6 at a concrete row whose Gets conversion fails. -/
theorem c6_witness :
    ∃ info, parseFields ["n2", "c2", "b2", "s2", "zz", "9Q", "f2"] = .ok info ∧
      info.Gets =
        ((parseAtoi (dropLastStr (List.getD ["n2", "c2", "b2", "s2", "zz", "9Q", "f2"] 4 ""))).getD 0 : ℤ) :=
  c6_amended_gets_decode _ (by decide) (by decide)

/-- Descriptor parseFields builds from the all-filled 7-cell row used in the
C4 witness. -/
def filledInfo : XdccFileInfo :=
  { Network := "n3", Channel := "c3", BotName := "b3", Slot := "s3",
    Gets := 7, Size := 3145728, Name := "file3", Url := "", Command := "" }

/-- C4 counterexample: a 7-cell row whose name, bot and slot cells are all
empty still parses successfully, producing a descriptor with empty
FileName, BotName and Slot — the claimed non-emptiness invariant fails. -/
theorem c4_counterexample_empty_cells :
    parseFields ["", "", "", "", "0x", "1K", ""] = .ok emptyFieldsInfo ∧
      emptyFieldsInfo.BotName = "" ∧ emptyFieldsInfo.Name = "" ∧
      emptyFieldsInfo.Slot = "" := by decide

/-- C4 amended: parseFields validates nothing beyond the cell count — the
FileName, BotName and Slot of a successfully parsed record are the verbatim
cell texts (so they are empty exactly when the cells are). -/
theorem c4_amended_fields_copied (fields : List String) (info : XdccFileInfo)
    (h : parseFields fields = .ok info) :
    info.Name = fields.getD 6 "" ∧ info.BotName = fields.getD 2 "" ∧
      info.Slot = fields.getD 3 "" := by
  obtain ⟨-, -, hinfo⟩ := parseFields_ok_inv fields info h
  subst hinfo
  exact ⟨rfl, rfl, rfl⟩

/-- Witness for C4 at a concrete fully-filled row. -/
theorem c4_witness :
    filledInfo.Name = List.getD ["n3", "c3", "b3", "s3", "7x", "3M", "file3"] 6 "" ∧
      filledInfo.BotName = List.getD ["n3", "c3", "b3", "s3", "7x", "3M", "file3"] 2 "" ∧
      filledInfo.Slot = List.getD ["n3", "c3", "b3", "s3", "7x", "3M", "file3"] 3 "" :=
  c4_amended_fields_copied _ filledInfo (by decide)

/-- Inversion for a successful parseFileSize call: the numeric prefix
parsed as a float32 value q and the result is the truncated product of q
with one of the three unit multipliers. -/
theorem parseFileSize_ok_inv (s : String) (v : ℤ) (h : parseFileSize s = .ok v) :
    ∃ q : Frac, parseFloat32 (dropLastStr s) = some q ∧
      (v = truncF (fracMul q GigaByte) ∨ v = truncF (fracMul q MegaByte) ∨
        v = truncF (fracMul q KiloByte)) := by
  unfold parseFileSize at h
  split at h
  · exact absurd h (by simp)
  · simp only [] at h
    split at h
    · exact absurd h (by simp)
    · next q hq =>
      refine ⟨q, hq, ?_⟩
      split at h
      · exact Or.inl (by injection h with h; exact h.symm)
      · split at h
        · exact Or.inr (Or.inl (by injection h with h; exact h.symm))
        · split at h
          · exact Or.inr (Or.inr (by injection h with h; exact h.symm))
          · exact absurd h (by simp)

/-- Truncation toward zero of a fraction with non-negative numerator is
non-negative. -/
theorem truncF_nonneg {a : Frac} (h : 0 ≤ a.num) : 0 ≤ truncF a := by
  unfold truncF
  rw [if_pos h]
  exact Int.fdiv_nonneg h (le_of_lt a.dpos)

/-- C3 counterexample: the provider parses a row whose size cell is
"-2.5G" into a descriptor whose SizeBytes is -2684354560 — a negative
value different from the sentinel -1, refuting the claimed invariant. -/
theorem c3_counterexample_negative_size :
    xdccEuParse [[], negSizeRow] = some [negSizeInfo] ∧
      negSizeInfo.Size = -2684354560 ∧
      ¬(negSizeInfo.Size = -1 ∨ 0 ≤ negSizeInfo.Size) := by decide

/-- C3 amended: the SizeBytes of a successfully parsed record is the
sentinel -1 or a non-negative byte count, except when the size cell's
numeric prefix parses (as float32) to a negative value — then a negative
byte count other than -1 can appear, as with "-2.5G". -/
theorem c3_amended_size_sign (fields : List String) (info : XdccFileInfo)
    (h : parseFields fields = .ok info) :
    info.Size = -1 ∨ 0 ≤ info.Size ∨
      ∃ q : Frac, parseFloat32 (dropLastStr (fields.getD 5 "")) = some q ∧ q.num < 0 := by
  obtain ⟨-, -, hinfo⟩ := parseFields_ok_inv fields info h
  subst hinfo
  show sizeValue (fields.getD 5 "") = -1 ∨ 0 ≤ sizeValue (fields.getD 5 "") ∨ _
  unfold sizeValue
  rcases hps : parseFileSize (fields.getD 5 "") with m | v
  · exact Or.inl rfl
  · obtain ⟨q, hq, hv⟩ := parseFileSize_ok_inv _ _ hps
    rcases lt_or_ge q.num 0 with hneg | hpos
    · exact Or.inr (Or.inr ⟨q, hq, hneg⟩)
    · refine Or.inr (Or.inl ?_)
      rcases hv with rfl | rfl | rfl
      · exact truncF_nonneg (mul_nonneg hpos (by decide))
      · exact truncF_nonneg (mul_nonneg hpos (by decide))
      · exact truncF_nonneg (mul_nonneg hpos (by decide))

/-- Descriptor of the concrete row used in the C3 witness. -/
def posSizeInfo : XdccFileInfo :=
  { Network := "w", Channel := "x", BotName := "y", Slot := "z",
    Gets := 1, Size := 2048, Name := "nm", Url := "", Command := "" }

/-- Witness for C3 (amended) at a concrete row with size cell "2K". -/
theorem c3_witness :
    posSizeInfo.Size = -1 ∨ 0 ≤ posSizeInfo.Size ∨
      ∃ q : Frac,
        parseFloat32 (dropLastStr (List.getD ["w", "x", "y", "z", "1x", "2K", "nm"] 5 "")) =
          some q ∧ q.num < 0 :=
  c3_amended_size_sign _ posSizeInfo (by decide)

/-- Whether the decimal numeric prefix s parses and is exactly
representable as a float32 value (the rounded value equals the exact one). -/
def prefixExactF32 (s : String) : Bool :=
  match parseDecimal s with
  | some q =>
    match roundFloat32 q with
    | some r => fracEqB r q
    | none => false
  | none => false

/-- Byte count by exact decimal-times-multiplier arithmetic, bypassing the
float32 rounding the code performs. -/
def exactSizeBytes (s : String) (u : Frac) : Option ℤ :=
  (parseDecimal s).map (fun q => truncF (fracMul q u))

/-- C10 counterexample: the prefix 1.00000001 is not exactly representable
as a float32 (the code rounds it to 1.0), yet the resulting byte count 1024
equals the exact decimal-times-multiplier byte count — the claim that every
unrepresentable prefix yields a differing byte count is false. -/
theorem c10_counterexample_equal_byte_count :
    prefixExactF32 "1.00000001" = false ∧
      parseFileSize "1.00000001K" = .ok 1024 ∧
      exactSizeBytes "1.00000001" KiloByte = some 1024 := by decide

/-- C10 amended: the prefix is parsed at float32 precision and rounded
before multiplication, and the byte count can differ from exact
decimal-times-multiplier arithmetic: 16777217 rounds to the float32
16777216, so "16777217K" decodes to 17179869184 instead of the exact
17179870208. -/
theorem c10_amended_float32_rounding :
    prefixExactF32 "16777217" = false ∧
      parseFileSize "16777217K" = .ok 17179869184 ∧
      exactSizeBytes "16777217" KiloByte = some 17179870208 ∧
      (17179869184 : ℤ) ≠ 17179870208 := by decide

/-- C5: on each failing fetch — transport error, non-200 status, or
malformed document — XdccEuProvider.Search calls log.Fatal and terminates
the process instead of returning a non-nil error: the claimed contract is
violated by the code on every failure path. -/
theorem c5_search_terminates_process_on_failures :
    xdccEuSearch ["ubuntu"] (fun _ => .netError "connection refused") =
        .fatalExit "connection refused" ∧
      xdccEuSearch ["ubuntu"] (fun _ => .response 404 "404 Not Found" (.ok [])) =
        .fatalExit "status code error: 404 404 Not Found" ∧
      xdccEuSearch ["ubuntu"] (fun _ => .response 200 "200 OK" (.error "document parse failure")) =
        .fatalExit "document parse failure" :=
  ⟨rfl, rfl, rfl⟩

/-- leadsWith accepts its own argument as the leading part of any
extension. -/
theorem leadsWith_append (p t : List Char) : leadsWith p (p ++ t) = true := by
  induction p with
  | nil => rfl
  | cons c cs ih => simp [leadsWith, ih]

/-- Replacing the first occurrence of a non-empty leading pattern
substitutes it at the front and keeps the remainder intact. -/
theorem replaceOnceAux_leading (old new rest : List Char) (hold : old ≠ []) :
    replaceOnceAux old new (old ++ rest) = new ++ rest := by
  cases old with
  | nil => exact absurd rfl hold
  | cons c cs =>
    have hl : leadsWith (c :: cs) (c :: (cs ++ rest)) = true := leadsWith_append (c :: cs) rest
    show replaceOnceAux (c :: cs) new (c :: (cs ++ rest)) = new ++ rest
    unfold replaceOnceAux
    rw [if_pos hl]
    show new ++ List.drop (c :: cs).length ((c :: cs) ++ rest) = new ++ rest
    rw [List.drop_left]

/-- String-level version: a locator that starts with the old pattern has
exactly that leading occurrence replaced. -/
theorem replaceOnce_leading {u : String} {rest : List Char}
    (h : u.data = "irc://".data ++ rest) :
    (replaceOnce u "irc://" "http://").data = "http://".data ++ rest := by
  unfold replaceOnce
  rw [if_neg (by decide)]
  show replaceOnceAux "irc://".data "http://".data u.data = _
  rw [h, replaceOnceAux_leading _ _ _ (by decide)]

/-- C7: whenever a row produces a descriptor and the anchor href of cell
index 1 starts with irc://, the descriptor's URL is the locator with only
that first occurrence replaced by http:// (the remainder, including any
later irc:// occurrence, is untouched), and its Command is
"/msg " + BotName + " xdcc send " + Slot. -/
theorem c7_url_and_command (row : List Cell) (u : String) (rest : List Char)
    (info : XdccFileInfo) (_hlen : row.length = 7)
    (hhref : (row[1]?).bind Cell.href = some u)
    (hurl : u.data = "irc://".data ++ rest)
    (hok : processRow row = .ok info) :
    info.Url.data = "http://".data ++ rest ∧
      info.Command = "/msg " ++ info.BotName ++ " xdcc send " ++ info.Slot := by
  unfold processRow at hok
  simp only [] at hok
  rw [hhref] at hok
  split at hok
  · exact absurd hok (by simp)
  · exact absurd hok (by simp)
  · next info0 heq =>
    injection hok with hok
    subst hok
    exact ⟨replaceOnce_leading hurl, rfl⟩

/-- The 7-cell row with an irc:// anchor used in the C7 witness. -/
def anchorRow : List Cell :=
  [⟨"net", none⟩, ⟨"#chan", some "irc://net/chan/bot/1"⟩, ⟨"bot", none⟩, ⟨"#1", none⟩,
    ⟨"5x", none⟩, ⟨"1K", none⟩, ⟨"file.iso", none⟩]

/-- The descriptor the provider builds from anchorRow. -/
def anchorInfo : XdccFileInfo :=
  { Network := "net", Channel := "#chan", BotName := "bot", Slot := "#1",
    Gets := 5, Size := 1024, Name := "file.iso",
    Url := "http://net/chan/bot/1", Command := "/msg bot xdcc send #1" }

/-- Witness for C7 at a concrete row. -/
theorem c7_witness :
    anchorInfo.Url.data = "http://".data ++ "net/chan/bot/1".data ∧
      anchorInfo.Command = "/msg " ++ anchorInfo.BotName ++ " xdcc send " ++ anchorInfo.Slot :=
  c7_url_and_command anchorRow "irc://net/chan/bot/1" "net/chan/bot/1".data anchorInfo
    (by decide) (by decide) (by decide) (by decide)

/-- A row with a cell count other than 7 is skipped: parseFields rejects it
with a Go error that the loop body swallows. -/
theorem processRow_skipped_of_bad_length (row : List Cell) (h : row.length ≠ 7) :
    processRow row = .skipped := by
  have hp : parseFields (row.map fun c => goTrimSpace c.text) =
      .error "unespected number of search entry fields" := by
    unfold parseFields
    rw [if_pos (by simpa [xdccEuNumberOfEntries] using h)]
  unfold processRow
  simp only []
  rw [hp]

/-- Removing or inserting a skipped row changes nothing about how the other
rows are processed. -/
theorem processRows_splice (pre post : List (List Cell)) (row : List Cell)
    (h : processRow row = .skipped) :
    processRows (pre ++ row :: post) = processRows (pre ++ post) := by
  induction pre with
  | nil => simp [processRows, h]
  | cons r rs ih =>
    show processRows (r :: (rs ++ row :: post)) = processRows (r :: (rs ++ post))
    unfold processRows
    rw [ih]

/-- C8: a table row whose cell count is not 7 contributes nothing: it is
skipped without error or panic, and the provider's result over the whole
table is the same as if the row were absent — every other row is still
processed. -/
theorem c8_wrong_cell_count_row_dropped (hd : List Cell) (pre post : List (List Cell))
    (row : List Cell) (h : row.length ≠ 7) :
    processRow row = .skipped ∧
      xdccEuParse (hd :: (pre ++ row :: post)) = xdccEuParse (hd :: (pre ++ post)) := by
  have hs := processRow_skipped_of_bad_length row h
  refine ⟨hs, ?_⟩
  unfold xdccEuParse
  simpa using processRows_splice pre post row hs

/-- Witness for C8 with a concrete one-cell row spliced into a table. -/
theorem c8_witness :
    processRow [Cell.mk "only" none] = .skipped ∧
      xdccEuParse [[], [Cell.mk "only" none]] = xdccEuParse [[]] :=
  c8_wrong_cell_count_row_dropped [] [] [] [Cell.mk "only" none] (by decide)
